import Mathlib

/-!
Verification of `dbx/utils/common.py` (utility layer of the dbx CLI).

Shallow embedding conventions:
* A JSON value is modelled by the inductive `Json`; a Python `dict` (whose
  iteration order is insertion order) is modelled by an association list
  `List (K × V)`; real Python dicts always have pairwise-distinct keys, which
  appears as `Nodup` hypotheses on the key list where it matters.
* Mutating dict primitives (`d[k] = v`, `d.update(m)`, `d.get(k)`) are
  modelled by the pure functions `pySetItem`, `pyUpdate`, `pyGet`, following
  CPython semantics: assignment to an existing key replaces the value in
  place, assignment to a fresh key appends it.
* The local filesystem, as seen through `json.load`/`json.dump`, is modelled
  as `FS := String → Option (List (String × Json))`: a map from path to the
  JSON document stored there (`none` = no file).  The `json` codec is
  modelled by its contract — `json.load` inverts `json.dump` on JSON
  documents — so `write_json` stores the document itself and `read_json`
  returns it; a missing file makes `read_json` fail with `fileNotFound`
  (Python's `FileNotFoundError`).
* Python exceptions are modelled with `Except PyError`; a function that the
  source lets raise returns `Except`/`Option`, a function that catches
  everything it can raise is total.
-/

/-- A JSON value (`Any` restricted to what `json.dump` accepts and
`json.load` produces): null, booleans, integers, strings, arrays, objects.
Objects are association lists in insertion order, like Python dicts. -/
inductive Json where
  | null : Json
  | bool (b : Bool) : Json
  | num (n : Int) : Json
  | str (s : String) : Json
  | arr (xs : List Json) : Json
  | obj (kvs : List (String × Json)) : Json

/-- Python exceptions that the modelled code can raise. -/
inductive PyError where
  /-- `FileNotFoundError`, raised by `open(path, "r")` on a missing path. -/
  | fileNotFound : PyError
  /-- `AttributeError`, raised by `x.update(...)` when `x` is not a dict
  (in particular when `x` is `None`). -/
  | attributeError : PyError
  deriving DecidableEq, Repr

/-- Python `d.get(k)`: the value at the first (for a real dict: only)
occurrence of key `k`, or `None`. -/
def pyGet {K V : Type} [DecidableEq K] : List (K × V) → K → Option V
  | [], _ => none
  | kv :: rest, k => if kv.1 = k then some kv.2 else pyGet rest k

/-- Python `d[k] = v`: replace the value at the first occurrence of `k` in
place, or append `(k, v)` when `k` is absent. -/
def pySetItem {K V : Type} [DecidableEq K] : List (K × V) → K → V → List (K × V)
  | [], k, v => [(k, v)]
  | kv :: rest, k, v =>
    if kv.1 = k then (k, v) :: rest else kv :: pySetItem rest k v

/-- Python `d.update(new)`: `for k, v in new.items(): d[k] = v`. -/
def pyUpdate {K V : Type} [DecidableEq K] (d new : List (K × V)) : List (K × V) :=
  new.foldl (fun acc kv => pySetItem acc kv.1 kv.2) d

/-- The keys of a dict, in order. -/
def pyKeys {K V : Type} (d : List (K × V)) : List K :=
  d.map Prod.fst

/-- A JSON document on disk: a top-level object, as all documents of this
layer are. -/
abbrev Dict := List (String × Json)

/-- The filesystem as seen through the JSON codec: path ↦ stored document. -/
abbrev FS := String → Option Dict

/-- `read_json(file_path)`: `json.load(open(file_path))`.  Raises
`FileNotFoundError` when no file exists at the path. -/
def read_json (fs : FS) (file_path : String) : Except PyError Dict :=
  match fs file_path with
  | some content => .ok content
  | none => .error .fileNotFound

/-- `write_json(content, file_path)`: `json.dump(content, open(file_path, "w"), indent=4)` —
overwrite the file at `file_path` with `content`. -/
def write_json (content : Dict) (file_path : String) (fs : FS) : FS :=
  fun p => if p = file_path then some content else fs p

/-- `update_json(new_content, file_path)`: read the file (treating a missing
file as `{}` — only `FileNotFoundError` is caught), shallow-merge
`new_content` into it, write the result back. -/
def update_json (new_content : Dict) (file_path : String) (fs : FS) : FS :=
  let content : Dict :=
    match read_json fs file_path with
    | .ok c => c
    | .error _ => []
  write_json (pyUpdate content new_content) file_path fs

/-! ### Association-list lemmas for Python dict semantics -/

theorem pyGet_pySetItem {K V : Type} [DecidableEq K] (d : List (K × V)) (k a : K) (v : V) :
    pyGet (pySetItem d k v) a = if a = k then some v else pyGet d a := by
  induction d with
  | nil =>
    by_cases h : a = k
    · subst h; simp [pySetItem, pyGet]
    · have h' : ¬ k = a := fun he => h he.symm
      simp [pySetItem, pyGet, h, h']
  | cons kv rest ih =>
    obtain ⟨k0, v0⟩ := kv
    by_cases hk : k0 = k
    · subst hk
      by_cases ha : k0 = a
      · subst ha
        simp [pySetItem, pyGet]
      · have ha' : ¬ a = k0 := fun he => ha he.symm
        simp [pySetItem, pyGet, ha, ha']
    · by_cases ha : k0 = a
      · subst ha
        have hak : ¬ k0 = k := hk
        simp [pySetItem, pyGet, hk, hak]
      · simp [pySetItem, pyGet, hk, ha, ih]

theorem pyGet_eq_none_of_not_mem {K V : Type} [DecidableEq K] (d : List (K × V)) (k : K)
    (h : k ∉ pyKeys d) : pyGet d k = none := by
  induction d with
  | nil => rfl
  | cons kv rest ih =>
    simp [pyKeys] at h
    have hne : ¬ kv.1 = k := fun he => h.1 he.symm
    simpa [pyGet, hne] using ih (by simpa [pyKeys] using h.2)

/-- Lookup after Python `update`: a key of `new` answers `new`'s value, any
other key answers as before.  `new` is a real dict (distinct keys). -/
theorem pyGet_pyUpdate {K V : Type} [DecidableEq K] (d new : List (K × V)) (a : K)
    (hnew : (pyKeys new).Nodup) :
    pyGet (pyUpdate d new) a = (pyGet new a).elim (pyGet d a) some := by
  induction new generalizing d with
  | nil => simp [pyUpdate, pyGet]
  | cons kv rest ih =>
    obtain ⟨k0, v0⟩ := kv
    have hnew' : (k0 :: pyKeys rest).Nodup := hnew
    have hk : k0 ∉ pyKeys rest := (List.nodup_cons.mp hnew').1
    have hrest : (pyKeys rest).Nodup := (List.nodup_cons.mp hnew').2
    have hstep : pyUpdate d ((k0, v0) :: rest) = pyUpdate (pySetItem d k0 v0) rest := rfl
    rw [hstep, ih _ hrest]
    by_cases ha : k0 = a
    · subst ha
      rw [pyGet_eq_none_of_not_mem rest k0 hk]
      simp [pyGet, pyGet_pySetItem]
    · have ha' : ¬ a = k0 := fun h => ha h.symm
      have hcons : pyGet ((k0, v0) :: rest) a = pyGet rest a := by simp [pyGet, ha]
      rw [hcons]
      cases hr : pyGet rest a with
      | none => simp [pyGet_pySetItem, ha']
      | some v => simp

theorem pySetItem_eq_append {K V : Type} [DecidableEq K] (d : List (K × V)) (k : K) (v : V)
    (h : k ∉ pyKeys d) : pySetItem d k v = d ++ [(k, v)] := by
  induction d with
  | nil => rfl
  | cons kv rest ih =>
    simp [pyKeys] at h
    have hne : ¬ kv.1 = k := fun he => h.1 he.symm
    simp [pySetItem, hne, ih (by simpa [pyKeys] using h.2)]

/-- Python `update` into a dict with disjoint keys appends the new pairs. -/
theorem pyUpdate_disjoint_eq_append {K V : Type} [DecidableEq K] (d new : List (K × V))
    (hdisj : ∀ k ∈ pyKeys new, k ∉ pyKeys d) (hnew : (pyKeys new).Nodup) :
    pyUpdate d new = d ++ new := by
  induction new generalizing d with
  | nil => simp [pyUpdate]
  | cons kv rest ih =>
    obtain ⟨k0, v0⟩ := kv
    have hnew' : (k0 :: pyKeys rest).Nodup := hnew
    have hk : k0 ∉ pyKeys d := hdisj k0 (List.mem_cons_self k0 (pyKeys rest))
    have hknotrest : k0 ∉ pyKeys rest := (List.nodup_cons.mp hnew').1
    have hrest : (pyKeys rest).Nodup := (List.nodup_cons.mp hnew').2
    have hstep : pyUpdate d ((k0, v0) :: rest) = pyUpdate (pySetItem d k0 v0) rest := rfl
    rw [hstep, pySetItem_eq_append d k0 v0 hk]
    have hdisj' : ∀ k ∈ pyKeys rest, k ∉ pyKeys (d ++ [(k0, v0)]) := by
      intro k hkmem
      have h1 : k ∉ pyKeys d := hdisj k (List.mem_cons_of_mem k0 hkmem)
      have h2 : k ≠ k0 := fun he => hknotrest (he ▸ hkmem)
      have happ : pyKeys (d ++ [(k0, v0)]) = pyKeys d ++ [k0] := by simp [pyKeys]
      rw [happ]
      intro hmem'
      rcases List.mem_append.mp hmem' with h | h
      · exact h1 h
      · exact h2 (by simpa using h)
    rw [ih _ hdisj' hrest, List.append_assoc]
    rfl

/-- `{}` updated with a real dict `new` is `new` itself. -/
theorem pyUpdate_nil_eq {K V : Type} [DecidableEq K] (new : List (K × V))
    (hnew : (pyKeys new).Nodup) : pyUpdate [] new = new := by
  simpa using pyUpdate_disjoint_eq_append [] new (by simp [pyKeys]) hnew

/-! ### Claims C1-C3: the JSON store -/

/-- C1: for every partial map `M` and path `P` whose file already holds a map
`C`, `update_json M P` writes the shallow merge of `C` and `M`: every key of
`C` not present in `M` keeps its value from `C`, and every key present in `M`
takes `M`'s value wholesale (top-level replacement, no recursive merge of
nested structures). -/
theorem update_json_shallow_merge (fs : FS) (file_path : String) (C M : Dict) (k : String)
    (hC : fs file_path = some C) (hM : (pyKeys M).Nodup) :
    update_json M file_path fs file_path = some (pyUpdate C M) ∧
    pyGet (pyUpdate C M) k = (pyGet M k).elim (pyGet C k) some := by
  constructor
  · simp [update_json, read_json, write_json, hC]
  · exact pyGet_pyUpdate C M k hM

/-- Witness for C1: a file holding `{a: 1, b: {x: 1}}` updated with
`{b: {y: 2}, c: 3}` stores the shallow merge, and the nested object at `b`
is replaced wholesale by the new one. -/
theorem update_json_shallow_merge_witness :
    update_json [("b", Json.obj [("y", Json.num 2)]), ("c", Json.num 3)] "conf/deployment.json"
        (fun _ => some [("a", Json.num 1), ("b", Json.obj [("x", Json.num 1)])])
        "conf/deployment.json"
      = some (pyUpdate [("a", Json.num 1), ("b", Json.obj [("x", Json.num 1)])]
          [("b", Json.obj [("y", Json.num 2)]), ("c", Json.num 3)]) ∧
    pyGet (pyUpdate [("a", Json.num 1), ("b", Json.obj [("x", Json.num 1)])]
        [("b", Json.obj [("y", Json.num 2)]), ("c", Json.num 3)]) "b" =
      (pyGet [("b", Json.obj [("y", Json.num 2)]), ("c", Json.num 3)] "b").elim
        (pyGet [("a", Json.num 1), ("b", Json.obj [("x", Json.num 1)])] "b") some :=
  update_json_shallow_merge
    (fun _ => some [("a", Json.num 1), ("b", Json.obj [("x", Json.num 1)])])
    "conf/deployment.json"
    [("a", Json.num 1), ("b", Json.obj [("x", Json.num 1)])]
    [("b", Json.obj [("y", Json.num 2)]), ("c", Json.num 3)]
    "b" rfl (by decide)

/-- C2: updating a path where no file exists produces exactly the same
resulting filesystem as writing: the missing file is treated as the empty
map (no file-not-found error escapes `update_json`, which is total). -/
theorem update_json_missing_eq_write_json (fs : FS) (file_path : String) (M : Dict)
    (hmiss : fs file_path = none) (hM : (pyKeys M).Nodup) :
    update_json M file_path fs = write_json M file_path fs := by
  simp [update_json, read_json, hmiss, pyUpdate_nil_eq M hM]

/-- Witness for C2: on an empty filesystem, updating `{a: 1}` into a path
equals writing `{a: 1}` there. -/
theorem update_json_missing_eq_write_json_witness :
    update_json [("a", Json.num 1)] ".dbx/project.json" (fun _ => none)
      = write_json [("a", Json.num 1)] ".dbx/project.json" (fun _ => none) :=
  update_json_missing_eq_write_json (fun _ => none) ".dbx/project.json"
    [("a", Json.num 1)] rfl (by decide)

/-- C3: `write_json M P` followed by `read_json P` yields `M` again (the
store round-trips through the JSON serialization, whose codec contract
`load ∘ dump = id` the filesystem model bakes in). -/
theorem write_json_read_json_roundtrip (M : Dict) (file_path : String) (fs : FS) :
    read_json (write_json M file_path fs) file_path = .ok M := by
  simp [read_json, write_json]

/-! ### Claim C4: the deployment file -/

/-- `DeploymentFile(path)`: holds the path of the deployment JSON file
(Python attribute `self._path`). -/
structure DeploymentFile where
  path : String

/-- `DeploymentFile.get_environment(environment)`:
`read_json(self._path).get(environment)`.  Propagates `FileNotFoundError`
from `read_json`; an absent key yields `None`. -/
def get_environment (fs : FS) (d : DeploymentFile) (environment : String) :
    Except PyError (Option Json) :=
  (read_json fs d.path).map (fun content => pyGet content environment)

/-- `DeploymentFile.update_environment(environment, content)`: fetch the
existing blob with `get_environment`, call `.update(content)` on it (an
`AttributeError` when the blob is `None` — the entry is absent — or not a
dict), and `update_json` the merged blob back under the environment key. -/
def update_environment (fs : FS) (d : DeploymentFile) (environment : String)
    (content : List (String × Json)) : Except PyError FS :=
  match get_environment fs d environment with
  | .error e => .error e
  | .ok none => .error .attributeError
  | .ok (some (Json.obj kvs)) =>
      .ok (update_json [(environment, Json.obj (pyUpdate kvs content))] d.path fs)
  | .ok (some _) => .error .attributeError

/-- C4: with the deployment file present, `update_environment` fails with an
`AttributeError` when the environment has no entry (the merge target is
absent, so no entry is created), and when the entry exists (a JSON object
blob) the blob stored afterwards under that key is the shallow merge of the
old blob with `content`. -/
theorem update_environment_spec (fs : FS) (d : DeploymentFile) (environment : String)
    (content : List (String × Json)) (C : Dict) (kvs : List (String × Json))
    (hC : fs d.path = some C) :
    (pyGet C environment = none →
      update_environment fs d environment content = .error PyError.attributeError) ∧
    (pyGet C environment = some (Json.obj kvs) →
      ((update_environment fs d environment content).toOption.bind
          (fun fs2 => fs2 d.path)).bind
        (fun C2 => pyGet C2 environment) = some (Json.obj (pyUpdate kvs content))) := by
  constructor
  · intro hnone
    simp [update_environment, get_environment, read_json, Except.map, hC, hnone]
  · intro hsome
    have hupd : update_environment fs d environment content =
        .ok (update_json [(environment, Json.obj (pyUpdate kvs content))] d.path fs) := by
      simp [update_environment, get_environment, read_json, Except.map, hC, hsome]
    have hread : update_json [(environment, Json.obj (pyUpdate kvs content))] d.path fs d.path
        = some (pyUpdate C [(environment, Json.obj (pyUpdate kvs content))]) := by
      simp [update_json, read_json, write_json, hC]
    have hfin : pyGet (pyUpdate C [(environment, Json.obj (pyUpdate kvs content))]) environment
        = some (Json.obj (pyUpdate kvs content)) := by
      rw [pyGet_pyUpdate C _ environment (by simp [pyKeys])]
      simp [pyGet]
    rw [hupd]
    simp [Except.toOption, hread, hfin]

/-- Witness for C4: in a deployment file `{default: {profile: "p", k: 1}}`,
updating environment `default` with `{k: 2}` stores the shallow merge
`{profile: "p", k: 2}` under `default`. -/
theorem update_environment_spec_witness :
    ((update_environment
        (fun _ => some [("default", Json.obj [("profile", Json.str "p"), ("k", Json.num 1)])])
        ⟨"conf/deployment.json"⟩ "default" [("k", Json.num 2)]).toOption.bind
      (fun fs2 => fs2 "conf/deployment.json")).bind
        (fun C2 => pyGet C2 "default")
      = some (Json.obj (pyUpdate [("profile", Json.str "p"), ("k", Json.num 1)]
          [("k", Json.num 2)])) :=
  (update_environment_spec
    (fun _ => some [("default", Json.obj [("profile", Json.str "p"), ("k", Json.num 1)])])
    ⟨"conf/deployment.json"⟩ "default" [("k", Json.num 2)]
    [("default", Json.obj [("profile", Json.str "p"), ("k", Json.num 1)])]
    [("profile", Json.str "p"), ("k", Json.num 1)] rfl).2 rfl

/-! ### Claims C5, C6: retry behavior of `ApiV1Client` and `FileUploader`

The `@retry(tries=t, delay=d, backoff=b)` decorator (package `retry`,
`__retry_internal`) calls the wrapped function up to `t` times; after a
failed attempt that is not the last it sleeps the current delay and then
multiplies the delay by `b`; the last attempt's failure is re-raised with no
further sleep.  The underlying transport (`perform_query` or
`mlflow.log_artifact`) is modelled as a function from the attempt number to
a result, and a decorated call is modelled by `retryRun`, which records the
outcome together with the number of attempts made and the sleeps performed
(in seconds, as rationals). -/

/-- Trace of one decorated call: final outcome, attempts made, sleeps
performed between consecutive attempts. -/
structure RetryTrace (E A : Type) where
  result : Except E A
  attempts : Nat
  sleeps : List ℚ

/-- `__retry_internal` of the `retry` package: `idx` is the next attempt
number, `tries` the remaining attempts (the decorators in this file use
`tries ≥ 1`; `0` never occurs and is given the one-attempt behavior). -/
def retryRun {E A : Type} (f : Nat → Except E A) :
    Nat → Nat → ℚ → ℚ → RetryTrace E A
  | idx, 0, _, _ => ⟨f idx, 1, []⟩
  | idx, 1, _, _ => ⟨f idx, 1, []⟩
  | idx, tries + 2, delay, backoff =>
    match f idx with
    | .ok a => ⟨.ok a, 1, []⟩
    | .error _ =>
      ⟨(retryRun f (idx + 1) (tries + 1) (delay * backoff) backoff).result,
       (retryRun f (idx + 1) (tries + 1) (delay * backoff) backoff).attempts + 1,
       delay :: (retryRun f (idx + 1) (tries + 1) (delay * backoff) backoff).sleeps⟩

/-- `ApiV1Client.create_context`: `perform_query` under
`@retry(tries=10, delay=5, backoff=5)`. -/
def create_context {E A : Type} (transport : Nat → Except E A) : RetryTrace E A :=
  retryRun transport 0 10 5 5

/-- An undecorated `ApiV1Client` method: one `perform_query` call, no retry,
no sleep. -/
def callOnce {E A : Type} (transport : Nat → Except E A) : RetryTrace E A :=
  ⟨transport 0, 1, []⟩

/-- `ApiV1Client.get_command_status`: a single GET, undecorated. -/
def get_command_status {E A : Type} (transport : Nat → Except E A) : RetryTrace E A :=
  callOnce transport

/-- `ApiV1Client.cancel_command`: a single POST, undecorated. -/
def cancel_command {E A : Type} (transport : Nat → Except E A) : RetryTrace E A :=
  callOnce transport

/-- `ApiV1Client.execute_command`: a single POST, undecorated. -/
def execute_command {E A : Type} (transport : Nat → Except E A) : RetryTrace E A :=
  callOnce transport

/-- `ApiV1Client.get_context_status`: a single GET, undecorated; an HTTP
error is caught and turned into `None`. -/
def get_context_status {E A : Type} (transport : Nat → Except E A) :
    Option A × Nat × List ℚ :=
  (match transport 0 with
   | .ok a => some a
   | .error _ => none, 1, [])

/-- `FileUploader.upload_file`: `mlflow.log_artifact` under
`@retry(tries=3, delay=1, backoff=0.3)`. -/
def upload_file {E A : Type} (transport : Nat → Except E A) : RetryTrace E A :=
  retryRun transport 0 3 1 (3 / 10)

/-- When every attempt fails, a decorated call makes exactly `tries`
attempts, surfaces the last attempt's error, and sleeps
`delay * backoff ^ j` before attempt `j + 2`. -/
theorem retryRun_allFail {E A : Type} (f : Nat → Except E A) (e : Nat → E)
    (hf : ∀ i, f i = .error (e i)) :
    ∀ tries idx delay backoff, 1 ≤ tries →
      retryRun f idx tries delay backoff =
        ⟨.error (e (idx + (tries - 1))), tries,
          (List.range (tries - 1)).map (fun j => delay * backoff ^ j)⟩ := by
  intro tries
  induction tries with
  | zero => intro idx delay backoff h; exact absurd h (by norm_num)
  | succ n ih =>
    intro idx delay backoff _
    match n, ih with
    | 0, _ =>
      simp [retryRun, hf idx]
    | m + 1, ih =>
      have hrec := ih (idx + 1) (delay * backoff) backoff (by omega)
      have hlist : (List.range (m + 1)).map (fun j => delay * backoff ^ j)
          = delay :: (List.range m).map (fun j => delay * backoff * backoff ^ j) := by
        rw [List.range_succ_eq_map, List.map_cons, List.map_map]
        refine congrArg₂ _ (by simp) (List.map_congr_left ?_)
        intro j _
        show delay * backoff ^ (j + 1) = delay * backoff * backoff ^ j
        ring
      have hidx : idx + 1 + m = idx + (m + 1) := by omega
      simp only [retryRun, hf idx, hrec, Nat.succ_sub_one]
      rw [hidx, hlist]

/-- C5: against a transport whose every call fails, `create_context` makes
exactly 10 attempts before surfacing the final failure, sleeping between
consecutive attempts 5, 25, 125, ... seconds (initial delay 5, multiplied by
backoff factor 5 after each attempt); and no other `ApiV1Client` operation
retries: each makes a single call with no sleeps, whatever the transport
does. -/
theorem create_context_retry_spec {E A : Type} (transport g : Nat → Except E A)
    (e : Nat → E) (hf : ∀ i, transport i = .error (e i)) :
    create_context transport =
      ⟨.error (e 9), 10,
        [5, 25, 125, 625, 3125, 15625, 78125, 390625, 1953125]⟩ ∧
    (get_command_status g).attempts = 1 ∧ (get_command_status g).sleeps = [] ∧
    (cancel_command g).attempts = 1 ∧ (cancel_command g).sleeps = [] ∧
    (execute_command g).attempts = 1 ∧ (execute_command g).sleeps = [] ∧
    (get_context_status g).2 = (1, []) := by
  refine ⟨?_, rfl, rfl, rfl, rfl, rfl, rfl, rfl⟩
  rw [show create_context transport = retryRun transport 0 10 5 5 from rfl,
      retryRun_allFail transport e hf 10 0 5 5 (by norm_num)]
  norm_num [List.range_succ]

/-- Witness for C5: a transport failing on every attempt with the attempt
number as the error. -/
theorem create_context_retry_spec_witness :
    create_context (fun i => (.error i : Except Nat Unit)) =
      ⟨.error 9, 10, [5, 25, 125, 625, 3125, 15625, 78125, 390625, 1953125]⟩ ∧
    (get_command_status (fun _ => (.error 0 : Except Nat Unit))).attempts = 1 ∧
    (get_command_status (fun _ => (.error 0 : Except Nat Unit))).sleeps = [] ∧
    (cancel_command (fun _ => (.error 0 : Except Nat Unit))).attempts = 1 ∧
    (cancel_command (fun _ => (.error 0 : Except Nat Unit))).sleeps = [] ∧
    (execute_command (fun _ => (.error 0 : Except Nat Unit))).attempts = 1 ∧
    (execute_command (fun _ => (.error 0 : Except Nat Unit))).sleeps = [] ∧
    (get_context_status (fun _ => (.error 0 : Except Nat Unit))).2 = (1, []) :=
  create_context_retry_spec (fun i => .error i) (fun _ => .error 0)
    (fun i => i) (fun _ => rfl)

/-- Counterexample to C6 as stated: with 3 attempts there are only two
sleeps between attempts; the performed delay sequence is `[1, 0.3]`, not
`[1, 0.3, 0.09]`. -/
theorem upload_file_three_delays_false :
    (upload_file (fun i => (.error i : Except Nat Unit))).sleeps ≠
      [1, 3 / 10, 9 / 100] := by
  intro h
  have hs : (upload_file (fun i => (.error i : Except Nat Unit))).sleeps
      = [1, 1 * (3 / 10)] := rfl
  have hlen := congrArg List.length (hs.symm.trans h)
  simp at hlen

/-- C6 (amended): when every upload attempt fails, `FileUploader.upload_file`
makes up to 3 attempts (initial delay 1 second, backoff multiplier 0.3)
before surfacing the final failure; the delays actually slept between the
three attempts are 1 and 0.3 seconds (0.09 would precede only a fourth
attempt, which is never made). -/
theorem upload_file_retry_spec {E A : Type} (transport : Nat → Except E A)
    (e : Nat → E) (hf : ∀ i, transport i = .error (e i)) :
    upload_file transport = ⟨.error (e 2), 3, [1, 3 / 10]⟩ := by
  rw [show upload_file transport = retryRun transport 0 3 1 (3 / 10) from rfl,
      retryRun_allFail transport e hf 3 0 1 (3 / 10) (by norm_num)]
  norm_num [List.range_succ]

/-- Witness for C6 (amended): an upload transport failing on every attempt
with the attempt number as the error. -/
theorem upload_file_retry_spec_witness :
    upload_file (fun i => (.error i : Except Nat Unit)) =
      ⟨.error 2, 3, [1, 3 / 10]⟩ :=
  upload_file_retry_spec (fun i => .error i) (fun i => i) (fun _ => rfl)

/-! ### Claim C7: `InfoFile.initialize`

The filesystem state touched by `InfoFile.initialize` (the project
bootstrap): the `.dbx` and `conf` directories and the three JSON documents.
The deployment template bundled with the package
(`DEPLOYMENT_TEMPLATE_PATH`) is an arbitrary fixed document, passed as a
parameter.  The lock file is created with the literal text `"{}"`, i.e. the
empty document. -/
structure FsState where
  /-- the `.dbx` directory -/
  dbxDir : Bool
  /-- the `conf` directory -/
  confDir : Bool
  /-- `conf/deployment.json` -/
  deploymentFile : Option Dict
  /-- `.dbx/lock.json` -/
  lockFile : Option Dict
  /-- `.dbx/project.json` -/
  infoFile : Option Dict

/-- `InfoFile._create_dir`: `os.mkdir(DBX_PATH)` unless `.dbx` exists. -/
def InfoFile.create_dir (s : FsState) : FsState :=
  if s.dbxDir then s else { s with dbxDir := true }

/-- `InfoFile._create_deployment_file`: `os.mkdir(CONF_PATH)` unless `conf`
exists; copy the template to `conf/deployment.json` unless that file
exists. -/
def InfoFile.create_deployment_file (template : Dict) (s : FsState) : FsState :=
  let s1 := if s.confDir then s else { s with confDir := true }
  if s1.deploymentFile.isSome then s1 else { s1 with deploymentFile := some template }

/-- `InfoFile._create_lock_file`: write `"{}"` to `.dbx/lock.json` unless
that file exists. -/
def InfoFile.create_lock_file (s : FsState) : FsState :=
  if s.lockFile.isSome then s else { s with lockFile := some [] }

/-- `InfoFile.initialize` (`init` here): create the dbx directory, copy the
deployment template if absent, create an empty lock file if absent, then
write `{environments: {}}` to the info file — in that fixed order. -/
def InfoFile.init (template : Dict) (s : FsState) : FsState :=
  let s1 := InfoFile.create_dir s
  let s2 := InfoFile.create_deployment_file template s1
  let s3 := InfoFile.create_lock_file s2
  { s3 with infoFile := some [("environments", Json.obj [])] }

/-- C7: each step of `InfoFile.initialize` is idempotent (conditional on
existence; the final info-file write overwrites with a constant), so for
every starting filesystem state, running it twice leaves exactly the state
of running it once. -/
theorem InfoFile.init_idempotent (template : Dict) (s : FsState) :
    InfoFile.init template (InfoFile.init template s) = InfoFile.init template s ∧
    InfoFile.create_dir (InfoFile.create_dir s) = InfoFile.create_dir s ∧
    InfoFile.create_deployment_file template (InfoFile.create_deployment_file template s)
      = InfoFile.create_deployment_file template s ∧
    InfoFile.create_lock_file (InfoFile.create_lock_file s) = InfoFile.create_lock_file s := by
  obtain ⟨d, c, dep, lock, info⟩ := s
  cases d <;> cases c <;> cases dep <;> cases lock <;> cases info <;>
    simp [InfoFile.init, InfoFile.create_dir, InfoFile.create_deployment_file,
      InfoFile.create_lock_file]

/-! ### Python string splitting

`str.split(sep)` for a one-character separator, used by
`get_current_branch_name` (`ref.split("/")`) and `parse_multiple`
(`t.split("=")`).  Strings are modelled as character lists, so that the
function is structurally recursive and evaluates inside the kernel.  The
result is always nonempty (`"".split(sep) == [""]`). -/
def pySplit (sep : Char) : List Char → List (List Char)
  | [] => [[]]
  | c :: rest =>
    if c = sep then [] :: pySplit sep rest
    else
      match pySplit sep rest with
      | [] => [[c]]
      | p :: ps => (c :: p) :: ps

/-! ### Claim C8: `get_current_branch_name` -/

/-- What `git.Repo(".")` finds in the current directory. -/
inductive RepoState where
  /-- not a repository: `git.Repo` raises `InvalidGitRepositoryError`,
  which the function catches -/
  | noRepo : RepoState
  /-- a repository with `repo.head.is_detached` -/
  | detachedHead : RepoState
  /-- a repository on the active branch `name` -/
  | onBranch (name : List Char) : RepoState

/-- The process environment, restricted to the variable the function
consults: `GITHUB_REF` (present with a value, or absent). -/
structure OsEnviron where
  githubRef : Option (List Char)

/-- `get_current_branch_name()`: with `GITHUB_REF` present, the last
`/`-separated segment of its value (`ref.split("/")[-1]`; the split of any
string is nonempty, so the default of `getLastD` is never used); otherwise
`None` for a detached HEAD or a non-repository, and the active branch name
else. -/
def get_current_branch_name (env : OsEnviron) (repo : RepoState) : Option (List Char) :=
  match env.githubRef with
  | some ref => some ((pySplit '/' ref).getLastD [])
  | none =>
    match repo with
    | .noRepo => none
    | .detachedHead => none
    | .onBranch name => some name

/-- C8: `GITHUB_REF=refs/heads/main` yields `"main"` whatever the local
repository looks like; any present `GITHUB_REF` yields its last
`/`-separated segment; without it, a detached HEAD yields no value, an
attached HEAD yields the active branch name, and a non-repository directory
yields no value rather than raising. -/
theorem get_current_branch_name_spec :
    (∀ repo : RepoState,
      get_current_branch_name
          ⟨some ['r', 'e', 'f', 's', '/', 'h', 'e', 'a', 'd', 's', '/', 'm', 'a', 'i', 'n']⟩
          repo
        = some ['m', 'a', 'i', 'n']) ∧
    (∀ (ref : List Char) (repo : RepoState),
      get_current_branch_name ⟨some ref⟩ repo =
        some ((pySplit '/' ref).getLastD [])) ∧
    get_current_branch_name ⟨none⟩ .detachedHead = none ∧
    (∀ name : List Char,
      get_current_branch_name ⟨none⟩ (.onBranch name) = some name) ∧
    get_current_branch_name ⟨none⟩ .noRepo = none := by
  refine ⟨fun _ => rfl, fun _ _ => rfl, rfl, fun _ => rfl, rfl⟩

/-! ### Claim C9: `ApiV1Client.__init__` -/

/-- Helper for `pyReplace`, structurally recursive on a fuel argument (one
unit per examined position; fuel `s.length` suffices). -/
def pyReplaceAux (old sub : List Char) : Nat → List Char → List Char
  | _, [] => []
  | 0, s => s
  | fuel + 1, c :: rest =>
    if old ≠ [] ∧ old.isPrefixOf (c :: rest) then
      sub ++ pyReplaceAux old sub fuel ((c :: rest).drop old.length)
    else
      c :: pyReplaceAux old sub fuel rest

/-- Python `s.replace(old, sub)` for nonempty `old`: replace all
non-overlapping occurrences, scanning left to right. -/
def pyReplace (old sub s : List Char) : List Char :=
  pyReplaceAux old sub s.length s

/-- The `databricks_cli` `ApiClient`, reduced to the fields this code
touches: its base `url` and (standing for all the rest of its
configuration) a `token`. -/
structure ApiClient where
  url : List Char
  token : List Char
  deriving DecidableEq

instance : Inhabited ApiClient := ⟨⟨[], []⟩⟩

/-- The heap of `ApiClient` objects; Python variables hold indices into it,
and `copy.deepcopy` allocates a fresh object at the end. -/
structure ClientStore where
  clients : List ApiClient

/-- `"/api/2.0"` -/
def apiV2Segment : List Char := ['/', 'a', 'p', 'i', '/', '2', '.', '0']

/-- `"/api/1.2"` -/
def apiV1Segment : List Char := ['/', 'a', 'p', 'i', '/', '1', '.', '2']

/-- `ApiV1Client.__init__(api_client)`: `self.v1_client =
copy.deepcopy(api_client)` allocates a fresh object that is a copy of the
client at index `i`; the url rewrite `self.v1_client.url =
self.v1_client.url.replace('/api/2.0', '/api/1.2')` mutates only that fresh
object.  Returns the new heap and the index of `self.v1_client`. -/
def ApiV1Client.construct (store : ClientStore) (i : Nat)
    (h : i < store.clients.length) : ClientStore × Nat :=
  let orig := store.clients.get ⟨i, h⟩
  let v1 := { orig with url := pyReplace apiV2Segment apiV1Segment orig.url }
  (⟨store.clients ++ [v1]⟩, store.clients.length)

theorem getD_append_length {α : Type} (l : List α) (x d : α) :
    (l ++ [x]).getD l.length d = x := by
  induction l with
  | nil => rfl
  | cons a t _ => simp [List.getD]

/-- C9: constructing `ApiV1Client` leaves every pre-existing client — in
particular the passed one — unchanged on the heap, and the wrapper's
internal client (the freshly allocated copy) has the original's URL with
the `/api/2.0` segment replaced by `/api/1.2`. -/
theorem apiV1Client_construct_frame (store : ClientStore) (i : Nat)
    (h : i < store.clients.length) :
    (ApiV1Client.construct store i h).1.clients.take store.clients.length
      = store.clients ∧
    (ApiV1Client.construct store i h).1.clients.getD i default
      = store.clients.getD i default ∧
    ((ApiV1Client.construct store i h).1.clients.getD
        (ApiV1Client.construct store i h).2 default).url
      = pyReplace apiV2Segment apiV1Segment (store.clients.get ⟨i, h⟩).url ∧
    (ApiV1Client.construct store i h).2 = store.clients.length := by
  refine ⟨?_, ?_, ?_, rfl⟩
  · show (store.clients ++
        [{ store.clients.get ⟨i, h⟩ with
            url := pyReplace apiV2Segment apiV1Segment
              (store.clients.get ⟨i, h⟩).url }]).take store.clients.length
      = store.clients
    exact List.take_left _ _
  · show (store.clients ++
        [{ store.clients.get ⟨i, h⟩ with
            url := pyReplace apiV2Segment apiV1Segment
              (store.clients.get ⟨i, h⟩).url }]).getD i default
      = store.clients.getD i default
    exact List.getD_append _ _ _ _ h
  · show ((store.clients ++
        [{ store.clients.get ⟨i, h⟩ with
            url := pyReplace apiV2Segment apiV1Segment
              (store.clients.get ⟨i, h⟩).url }]).getD store.clients.length default).url
      = pyReplace apiV2Segment apiV1Segment (store.clients.get ⟨i, h⟩).url
    rw [getD_append_length]

/-- Sample client for the C9 witness: URL `https://x/api/2.0`. -/
def sampleClient : ApiClient :=
  ⟨['h', 't', 't', 'p', 's', ':', '/', '/', 'x', '/', 'a', 'p', 'i', '/', '2', '.', '0'],
   ['t']⟩

/-- Sample one-client heap for the C9 witness. -/
def sampleStore : ClientStore := ⟨[sampleClient]⟩

/-- Witness for C9: on `sampleStore`, the original client is untouched and
the copy's URL evaluates to `https://x/api/1.2`. -/
theorem apiV1Client_construct_frame_witness :
    ((ApiV1Client.construct sampleStore 0 (by decide)).1.clients.take 1
        = [sampleClient] ∧
      (ApiV1Client.construct sampleStore 0 (by decide)).1.clients.getD 0 default
        = sampleStore.clients.getD 0 default ∧
      ((ApiV1Client.construct sampleStore 0 (by decide)).1.clients.getD
          (ApiV1Client.construct sampleStore 0 (by decide)).2 default).url
        = pyReplace apiV2Segment apiV1Segment sampleClient.url ∧
      (ApiV1Client.construct sampleStore 0 (by decide)).2 = 1) ∧
    pyReplace apiV2Segment apiV1Segment sampleClient.url
      = ['h', 't', 't', 'p', 's', ':', '/', '/', 'x', '/', 'a', 'p', 'i', '/', '1', '.', '2'] :=
  ⟨apiV1Client_construct_frame sampleStore 0 (by decide), by decide⟩

/-! ### Claim C10: `parse_multiple` -/

/-- `parse_multiple(multiple_argument)`: split every argument on `=`
(`t.split("=")`), then build `{t[0]: t[1] for t in tags_splitted}` with
Python dict-comprehension semantics (later duplicate keys overwrite
earlier ones in place).  `t[1]` raises `IndexError` — modelled as `none` —
when an argument contains no `=`. -/
def parse_multiple (multiple_argument : List (List Char)) :
    Option (List (List Char × List Char)) :=
  multiple_argument.foldlM
    (fun acc t =>
      match pySplit '=' t with
      | k :: v :: _ => some (pySetItem acc k v)
      | _ => none)
    []

/-- The segment of `t` before the first `=` (all of `t` when there is
none). -/
def segBeforeEq (t : List Char) : List Char :=
  t.takeWhile (fun c => c != '=')

/-- The segment of `t` strictly between the first and the second `=`
(up to the end when there is no second `=`). -/
def segBetweenEq (t : List Char) : List Char :=
  ((t.dropWhile (fun c => c != '=')).drop 1).takeWhile (fun c => c != '=')

/-- Shape of `pySplit`: the first piece is everything before the first
separator, and the remaining pieces are the split of what follows it. -/
theorem pySplit_shape (sep : Char) (t : List Char) :
    pySplit sep t =
      match t.dropWhile (fun c => c != sep) with
      | [] => [t.takeWhile (fun c => c != sep)]
      | _ :: u => t.takeWhile (fun c => c != sep) :: pySplit sep u := by
  induction t with
  | nil => rfl
  | cons c rest ih =>
    by_cases hc : c = sep
    · subst hc
      simp [pySplit, List.dropWhile, List.takeWhile]
    · have hb : (c != sep) = true := by simp [hc]
      cases hd : rest.dropWhile (fun x => x != sep) with
      | nil => simp [pySplit, List.dropWhile, List.takeWhile, hb, hc, ih, hd]
      | cons x u => simp [pySplit, List.dropWhile, List.takeWhile, hb, hc, ih, hd]

/-- `pySplit` never returns an empty list, and its first piece is
everything before the first separator. -/
theorem pySplit_head (sep : Char) (u : List Char) :
    ∃ ps, pySplit sep u = u.takeWhile (fun c => c != sep) :: ps := by
  rw [pySplit_shape sep u]
  cases u.dropWhile (fun c => c != sep) with
  | nil => exact ⟨[], rfl⟩
  | cons y w => exact ⟨pySplit sep w, rfl⟩

/-- On an argument containing `=`, `pySplit` produces at least two pieces:
the segment before the first `=` and the segment between the first and
second `=`. -/
theorem pySplit_of_mem (t : List Char) (h : '=' ∈ t) :
    ∃ rest2, pySplit '=' t = segBeforeEq t :: segBetweenEq t :: rest2 := by
  have hne : t.dropWhile (fun c => c != '=') ≠ [] := by
    intro hnil
    rw [List.dropWhile_eq_nil_iff] at hnil
    simpa using hnil '=' h
  cases hd : t.dropWhile (fun c => c != '=') with
  | nil => exact absurd hd hne
  | cons x u =>
    obtain ⟨ps, hps⟩ := pySplit_head '=' u
    refine ⟨ps, ?_⟩
    rw [pySplit_shape '=' t, hd]
    have hu : segBetweenEq t = u.takeWhile (fun c => c != '=') := by
      rw [segBetweenEq, hd]
      rfl
    show t.takeWhile (fun c => c != '=') :: pySplit '=' u
        = segBeforeEq t :: segBetweenEq t :: ps
    rw [hps, segBeforeEq, hu]

/-- C10: `parse_multiple` is partial at the public interface.  On every
input list in which each string contains at least one `=`, it returns the
dict sending each string's segment before the first `=` to the segment
between the first and second `=` (text after a second `=` is dropped,
duplicate keys are overwritten dict-style); on the input `["a"]`, whose
string contains no `=`, it fails instead of returning a map. -/
theorem parse_multiple_spec :
    (∀ multiple_argument : List (List Char),
      (∀ t ∈ multiple_argument, '=' ∈ t) →
      parse_multiple multiple_argument =
        some (pyUpdate []
          (multiple_argument.map (fun t => (segBeforeEq t, segBetweenEq t))))) ∧
    parse_multiple [['a']] = none := by
  constructor
  · intro args
    suffices hgen : ∀ acc : List (List Char × List Char), (∀ t ∈ args, '=' ∈ t) →
        args.foldlM
          (fun acc t =>
            match pySplit '=' t with
            | k :: v :: _ => some (pySetItem acc k v)
            | _ => none)
          acc =
        some (pyUpdate acc (args.map (fun t => (segBeforeEq t, segBetweenEq t)))) by
      intro h
      exact hgen [] h
    induction args with
    | nil =>
      intro acc _
      simp [pyUpdate]
    | cons t rest ih =>
      intro acc h
      obtain ⟨rest2, hsplit⟩ := pySplit_of_mem t (h t (List.mem_cons_self t rest))
      rw [List.foldlM_cons]
      simp only [hsplit]
      exact ih (pySetItem acc (segBeforeEq t) (segBetweenEq t))
        (fun x hx => h x (List.mem_cons_of_mem t hx))
  · rfl

/-- Witness for C10: `["a=b", "c=d=e", "a=z"]` parses to `{a: z, c: d}`
(text after the second `=` dropped, later duplicate key overwriting the
earlier in place), and `["a"]` fails. -/
theorem parse_multiple_spec_witness :
    parse_multiple [['a', '=', 'b'], ['c', '=', 'd', '=', 'e'], ['a', '=', 'z']]
      = some [(['a'], ['z']), (['c'], ['d'])] ∧
    parse_multiple [['a']] = none :=
  ⟨(parse_multiple_spec.1 [['a', '=', 'b'], ['c', '=', 'd', '=', 'e'], ['a', '=', 'z']]
      (by decide)).trans (by decide),
   parse_multiple_spec.2⟩
